import Mathlib

/-!
Verification of the core claims of the unicorn_llm_testing_framework
repository: a shallow embedding in Lean 4 of the locator repository,
the backend drivers' run loop and aggregate-status derivation, the MCP
retry/self-heal loop, the deterministic SQL fallback, the router
classifier, and the version manager, together with theorems settling
the specification claims C1-C10.
-/

namespace Py

/-- Model of a Python value as it occurs in step dictionaries of this
repository: strings, integers, booleans, None, and nested string-keyed
dictionaries.  Lists are not needed by any modelled code path. -/
inductive PyVal where
  | pstr (s : String)
  | pint (n : Int)
  | pbool (b : Bool)
  | pnone
  | pobj (fields : List (String × PyVal))

/-- A step dictionary: an association list of field name to value, in
insertion order, with unique keys (Python dict semantics). -/
def Step := List (String × PyVal)

/-- Dictionary lookup, first occurrence (Python dicts have unique keys). -/
def Step.get? (st : Step) (k : String) : Option PyVal :=
  (List.find? (fun p => p.1 == k) st).map (fun p => p.2)

/-- Membership test mirroring the Python expression key in step. -/
def Step.hasKey (st : Step) (k : String) : Bool :=
  (List.find? (fun p => p.1 == k) st).isSome

/-- A single-quote character, built from its code point to keep
apostrophes out of string literals. -/
def sQuote : String := String.singleton (Char.ofNat 39)

/-- Lexicographic comparison of char lists by code point, matching how
Python compares strings in sorted(). -/
def lexLt : List Char → List Char → Bool
  | [], [] => false
  | [], _ :: _ => true
  | _ :: _, [] => false
  | a :: as, b :: bs =>
      if a.val < b.val then true
      else if b.val < a.val then false
      else lexLt as bs

/-- String comparison by code points (Python string ordering). -/
def strLtB (a b : String) : Bool := lexLt a.data b.data

/-- Insert into a list sorted by the given key projection. -/
def insertByKey (key : α → String) (x : α) : List α → List α
  | [] => [x]
  | y :: ys =>
      if strLtB (key y) (key x) then y :: insertByKey key x ys
      else x :: y :: ys

/-- Insertion sort by a string key, ascending, mirroring Python sorted(). -/
def sortByKey (key : α → String) : List α → List α
  | [] => []
  | x :: xs => insertByKey key x (sortByKey key xs)

/-- Decimal rendering of an integer as Python str()/json.dumps render it. -/
def intRepr (n : Int) : String := toString n

/-- Minimal JSON string escaping (backslash, double quote, newline); the
modelled inputs contain no other characters needing escapes. -/
def jsonEscapeChar (c : Char) : List Char :=
  if c = '\\' then ['\\', '\\']
  else if c = '"' then ['\\', '"']
  else if c = Char.ofNat 10 then ['\\', 'n']
  else [c]

/-- JSON serialization of a string, with quotes. -/
def jsonStr (s : String) : String :=
  ⟨'"' :: (s.data.flatMap jsonEscapeChar) ++ ['"']⟩

mutual

/-- Model of json.dumps over PyVal.  The first argument models the
sort_keys flag; ensure_ascii differences are irrelevant for the ASCII
inputs of the claims.  Separators are the Python defaults. -/
def jsonVal (sk : Bool) : PyVal → String
  | .pstr s => jsonStr s
  | .pint n => intRepr n
  | .pbool b => if b then "true" else "false"
  | .pnone => "null"
  | .pobj fs =>
      let rendered := jsonFields sk fs
      let ordered := if sk then sortByKey (fun p => p.1) rendered else rendered
      "\x7b" ++ String.intercalate ", " (ordered.map (fun p => p.2)) ++ "\x7d"

/-- JSON rendering of each field of an object, keyed for sorting. -/
def jsonFields (sk : Bool) : List (String × PyVal) → List (String × String)
  | [] => []
  | (k, v) :: rest => (k, jsonStr k ++ ": " ++ jsonVal sk v) :: jsonFields sk rest

end

mutual

/-- Model of Python str() as used in f-strings: strings unquoted,
dicts rendered via repr of their items. -/
def pyFstr : PyVal → String
  | .pstr s => s
  | .pint n => intRepr n
  | .pbool b => if b then "True" else "False"
  | .pnone => "None"
  | .pobj fs =>
      "\x7b" ++ String.intercalate ", " (pyReprFields fs) ++ "\x7d"

/-- Model of Python repr() for values nested inside a dict rendering;
quote escaping inside the repr is not modelled (no claim exercises it). -/
def pyRepr : PyVal → String
  | .pstr s => sQuote ++ s ++ sQuote
  | .pint n => intRepr n
  | .pbool b => if b then "True" else "False"
  | .pnone => "None"
  | .pobj fs =>
      "\x7b" ++ String.intercalate ", " (pyReprFields fs) ++ "\x7d"

/-- Rendering of dict items for Python repr. -/
def pyReprFields : List (String × PyVal) → List String
  | [] => []
  | (k, v) :: rest => (sQuote ++ k ++ sQuote ++ ": " ++ pyRepr v) :: pyReprFields rest

end

/-- Serialization of a whole step with sorted keys, mirroring
json.dumps on the dict comprehension over sorted(step) with
sort_keys=True in both compute_step_key implementations. -/
def fullStepJson (st : Step) : String :=
  jsonVal true (.pobj (sortByKey (fun p => p.1) st))

mutual

/-- Structural equality of Python values (the dunder-eq used when
values serve as dict keys). -/
def pyValBeq : PyVal → PyVal → Bool
  | .pstr a, .pstr b => a == b
  | .pint a, .pint b => a == b
  | .pbool a, .pbool b => a == b
  | .pnone, .pnone => true
  | .pobj a, .pobj b => pyFieldsBeq a b
  | _, _ => false

/-- Fieldwise equality of dict contents. -/
def pyFieldsBeq : List (String × PyVal) → List (String × PyVal) → Bool
  | [], [] => true
  | (k, v) :: r, (k2, v2) :: r2 => k == k2 && pyValBeq v v2 && pyFieldsBeq r r2
  | _, _ => false

end

/-- Equality of optional Python values (a dict key that may be absent). -/
def optPyBeq : Option PyVal → Option PyVal → Bool
  | none, none => true
  | some a, some b => pyValBeq a b
  | _, _ => false

/-- Lower-casing a string characterwise (Python str.lower on ASCII). -/
def lowerPy (s : String) : String := ⟨s.data.map Char.toLower⟩

/-- Python str.strip whitespace set (space, tab, carriage return,
newline; the rarer form-feed and vertical-tab are not modelled). -/
def isPyWs (c : Char) : Bool := c = ' ' || c = '\t' || c = '\r' || c = '\n'

/-- Python str.strip: drop whitespace from both ends. -/
def pyStrip (s : String) : String :=
  ⟨((s.data.dropWhile isPyWs).reverse.dropWhile isPyWs).reverse⟩

/-- Does the second char list start the first?  (Used for substring and
pattern checks; a fresh name is used to stay clear of library naming.) -/
def startsWithChars (needle hay : List Char) : Bool :=
  match needle, hay with
  | [], _ => true
  | _ :: _, [] => false
  | n :: ns, h :: hs => n == h && startsWithChars ns hs

/-- Substring containment, mirroring the Python expression
needle in hay on strings (empty needle always contained). -/
def hasSubstring (hay needle : List Char) : Bool :=
  if startsWithChars needle hay then true
  else
    match hay with
    | [] => false
    | _ :: t => hasSubstring t needle

end Py

namespace LocatorKeys

open Py

/-- First value among the given field names that is present in the
step, in order, mirroring the for-loop over descriptive fields. -/
def firstPresent : List String → Step → Option PyVal
  | [], _ => none
  | k :: rest, st =>
      match Step.get? st k with
      | some v => some v
      | none => firstPresent rest st

/-- Common shape of both compute_step_key implementations,
parameterized by the ordered fallback field list. -/
def computeStepKeyWith (order : List String) (step : Step) : String :=
  let action := (Step.get? step "action").getD (.pstr "unknown")
  match Step.get? step "selector" with
  | some v => pyFstr action ++ ":" ++ pyFstr v
  | none =>
    match Step.get? step "locator" with
    | some v => pyFstr action ++ ":" ++ jsonVal true v
    | none =>
      match firstPresent order step with
      | some v => pyFstr action ++ ":" ++ pyFstr v
      | none => pyFstr action ++ ":" ++ fullStepJson step

/-- Fallback field list of LocatorRepo.compute_step_key in
src/src/automation_framework/utils/locator_repo.py (no target field). -/
def repoFieldOrder : List String := ["element", "label", "text", "value", "placeholder"]

/-- Fallback field list of LocatorRepository.compute_step_key in
src/enterprise_automation_framework_final/utils/locator_repository.py. -/
def enterpriseFieldOrder : List String :=
  ["element", "label", "text", "value", "placeholder", "target"]

/-- Translation of LocatorRepo.compute_step_key
(src/src/automation_framework/utils/locator_repo.py lines 110-138). -/
def LocatorRepo_compute_step_key : Step → String :=
  computeStepKeyWith repoFieldOrder

/-- Translation of LocatorRepository.compute_step_key
(src/enterprise_automation_framework_final/utils/locator_repository.py
lines 87-116). -/
def LocatorRepository_compute_step_key : Step → String :=
  computeStepKeyWith enterpriseFieldOrder

end LocatorKeys

namespace LocatorStore

/-- A locator argument to add_locator: the dict may lack the type or
value entry (get returns None), modelled as Option. -/
structure Locator where
  ltype : Option String
  lvalue : Option String

/-- One row of the locators table (timestamps omitted: they come from
the wall clock and no claim concerns them). -/
structure LocRecord where
  context : String
  step_key : String
  locator_type : String
  locator_value : String
  version : Int
  is_active : Bool
deriving DecidableEq, Repr

/-- Python truthiness test for locator.get results: None or the empty
string are falsy. -/
def isFalsy : Option String → Bool
  | none => true
  | some s => s.isEmpty

/-- The WHERE context = ? AND step_key = ? filter. -/
def matchesKey (ctx key : String) (r : LocRecord) : Bool :=
  r.context == ctx && r.step_key == key

/-- SELECT MAX(version) over rows for the given key: None when no row
matches, as SQL MAX of an empty set is NULL. -/
def maxVersion (db : List LocRecord) (ctx key : String) : Option Int :=
  (db.filter (matchesKey ctx key)).foldl
    (fun acc r =>
      match acc with
      | none => some r.version
      | some m => some (max m r.version))
    none

/-- The row update applied by the deactivation statement: an active row
for the key becomes inactive, all other rows are unchanged. -/
def deactivateFor (ctx key : String) (r : LocRecord) : LocRecord :=
  if matchesKey ctx key r && r.is_active then { r with is_active := false } else r

/-- Translation of LocatorRepo.add_locator
(src/src/automation_framework/utils/locator_repo.py lines 164-206);
LocatorRepository.add_locator
(src/enterprise_automation_framework_final/utils/locator_repository.py
lines 141-177) is logic-for-logic identical (they differ only in which
wall-clock timestamp they record).  The validation error is raised
before any SQL statement runs, so the error branch leaves the table
untouched; the success branch deactivates every active row for the key,
computes MAX(version) + 1 (1 when NULL) and inserts the new active row. -/
def add_locator (db : List LocRecord) (ctx key : String) (loc : Locator) :
    Except String (List LocRecord) :=
  if isFalsy loc.ltype || isFalsy loc.lvalue then
    Except.error "Locator must have type and value fields"
  else
    let deactivated := db.map (deactivateFor ctx key)
    let next_version :=
      match maxVersion deactivated ctx key with
      | some m => m + 1
      | none => 1
    Except.ok (deactivated ++
      [{ context := ctx, step_key := key,
         locator_type := loc.ltype.getD "", locator_value := loc.lvalue.getD "",
         version := next_version, is_active := true }])

/-- Translation of LocatorRepo.get_locator (lines 140-162): the active
row with the highest version for the key, if any (ties cannot arise
through add_locator; the fold keeps the first highest). -/
def get_locator (db : List LocRecord) (ctx key : String) : Option (String × String) :=
  let actives := db.filter (fun r => matchesKey ctx key r && r.is_active)
  (actives.foldl
    (fun acc r =>
      match acc with
      | none => some r
      | some b => if b.version < r.version then some r else some b)
    none).map (fun r => (r.locator_type, r.locator_value))

end LocatorStore

namespace Drivers

/-- Outcome of one _execute_step call, as seen by the run loop: normal
return, a ValueError (missing data), or any other exception.  The call
itself performs I/O, so its outcome is an oracle supplied per step. -/
inductive ExecResult where
  | ok
  | valueErr
  | err
deriving DecidableEq, Repr

/-- A step as the run loop consumes it: the depends_on field (None, or
an int per the isinstance check) and the oracle outcome its
_execute_step call would have. -/
structure DrvStep where
  depends_on : Option Int
  exec : ExecResult
deriving DecidableEq, Repr

/-- Loop state of run_test_case: the run_steps rows recorded so far
(step_index, status), the three counters, and — as instrumentation for
the never-attempted property — the indices at which _execute_step was
invoked. -/
structure RunState where
  records : List (Nat × String)
  passed : Nat
  failed : Nat
  skipped : Nat
  attempted : List Nat
deriving DecidableEq, Repr

/-- Initial state of a run. -/
def initState : RunState := ⟨[], 0, 0, 0, []⟩

/-- The dependency scan: some previously recorded row has
step_index == dep and status failed or skipped. -/
def depUnmet (records : List (Nat × String)) (dep : Int) : Bool :=
  records.any (fun r => ((r.1 : Int) == dep) && (r.2 == "failed" || r.2 == "skipped"))

/-- Status string recorded when _execute_step is invoked and returns
the given outcome (ValueError is recorded skipped, any other exception
failed). -/
def execStatus : ExecResult → String
  | .ok => "passed"
  | .valueErr => "skipped"
  | .err => "failed"

/-- The guard raised as ValueError by the dependency check: depends_on
is an int and some recorded row for it failed or was skipped. -/
def skipsByDep (records : List (Nat × String)) (st : DrvStep) : Bool :=
  match st.depends_on with
  | some d => depUnmet records d
  | none => false

/-- Status a step iteration records, given the rows recorded so far. -/
def stepStatusOf (records : List (Nat × String)) (st : DrvStep) : String :=
  if skipsByDep records st then "skipped" else execStatus st.exec

/-- One iteration of the shared run-loop body (WebDriver.run_test_case
lines 168-199, APIDriver lines 62-86, MobileDriver lines 119-144 — the
three loops are textually identical): check depends_on against the rows
recorded so far; an unmet dependency raises ValueError before
_execute_step, recording skipped; otherwise execute and record. -/
def runStepDrv (s : RunState) (idx : Nat) (st : DrvStep) : RunState :=
  if skipsByDep s.records st then
    { s with records := s.records ++ [(idx, "skipped")], skipped := s.skipped + 1 }
  else
    match st.exec with
    | .ok =>
        { s with records := s.records ++ [(idx, "passed")], passed := s.passed + 1,
                 attempted := s.attempted ++ [idx] }
    | .valueErr =>
        { s with records := s.records ++ [(idx, "skipped")], skipped := s.skipped + 1,
                 attempted := s.attempted ++ [idx] }
    | .err =>
        { s with records := s.records ++ [(idx, "failed")], failed := s.failed + 1,
                 attempted := s.attempted ++ [idx] }

/-- The enumerate loop over steps, carrying the state. -/
def runSteps : Nat → RunState → List DrvStep → RunState
  | _, s, [] => s
  | idx, s, st :: rest => runSteps (idx + 1) (runStepDrv s idx st) rest

/-- A full run of the loop from the initial state. -/
def runCase (steps : List DrvStep) : RunState := runSteps 0 initState steps

/-- Aggregate-status derivation of WebDriver.run_test_case
(src/enterprise_automation_framework_final/web/web_driver.py 200-210). -/
def webOverallStatus (passed failed skipped : Nat) : String :=
  let executed := passed + failed
  if executed == 0 && decide (skipped > 0) then "skipped"
  else if failed == 0 && skipped == 0 then "passed"
  else if failed == executed then "failed"
  else "partial"

/-- Aggregate-status derivation of APIDriver.run_test_case
(src/enterprise_automation_framework_final/api/api_driver.py 88-96). -/
def apiOverallStatus (passed failed skipped : Nat) : String :=
  let executed := passed + failed
  if executed == 0 && decide (skipped > 0) then "skipped"
  else if failed == 0 && skipped == 0 then "passed"
  else if failed == executed then "failed"
  else "partial"

/-- Aggregate-status derivation of MobileDriver.run_test_case
(src/enterprise_automation_framework_final/mobile/mobile_driver.py
146-154). -/
def mobileOverallStatus (passed failed skipped : Nat) : String :=
  let executed := passed + failed
  if executed == 0 && decide (skipped > 0) then "skipped"
  else if failed == 0 && skipped == 0 then "passed"
  else if failed == executed then "failed"
  else "partial"

/-- End-to-end aggregate status of a web run over the given steps. -/
def web_run_test_case (steps : List DrvStep) : String :=
  let s := runCase steps
  webOverallStatus s.passed s.failed s.skipped

/-- End-to-end aggregate status of an API run over the given steps. -/
def api_run_test_case (steps : List DrvStep) : String :=
  let s := runCase steps
  apiOverallStatus s.passed s.failed s.skipped

/-- End-to-end aggregate status of a mobile run over the given steps. -/
def mobile_run_test_case (steps : List DrvStep) : String :=
  let s := runCase steps
  mobileOverallStatus s.passed s.failed s.skipped

/-- The aggregate-status rule exactly as the specification words it:
with P passed, F failed, S skipped and E = P + F executed, the status is
skipped when E = 0 and S > 0, else passed when F = 0 and S = 0, else
failed when F = E, else partial. -/
def claimAggregate (P F S : Nat) : String :=
  let E := P + F
  if E = 0 ∧ S > 0 then "skipped"
  else if F = 0 ∧ S = 0 then "passed"
  else if F = E then "failed"
  else "partial"

/-- Status recorded for a step index in the run_steps rows (rows are
appended once per step, so the first match is the row). -/
def recordedStatus (records : List (Nat × String)) (i : Nat) : Option String :=
  (records.find? (fun r => r.1 == i)).map (fun r => r.2)

end Drivers

namespace Mcp

/-- How the per-step retry loop of MCPBase.run ends: the step finally
succeeded, or retries were exhausted and the exception re-raised.  The
payload counts how many times _execute_step was invoked. -/
inductive StepEnd where
  | success (execCalls : Nat)
  | raised (execCalls : Nat)
deriving DecidableEq, Repr

/-- Translation of the while-loop body of MCPBase.run
(src/enterprise_automation_framework_final/src/automation_framework/mcp/mcp_base.py
lines 41-70) for one step.  exec t tells whether the t-th
_execute_step call succeeds; heal t whether the self-heal after the
t-th failure reports success (a heal that raises is caught and treated
as failure, so Bool suffices).  attempt is incremented on every failure
BEFORE self-healing is attempted; a successful heal merely skips the
exhaustion check and the sleep.  Fuel bounds the loop (the real loop
can run forever when healing always succeeds), none meaning the bound
was hit. -/
def runStepLoop (maxRetries : Nat) (exec heal : Nat → Bool) :
    Nat → Nat → Nat → Option StepEnd
  | 0, _, _ => none
  | fuel + 1, attempt, t =>
      if exec t then some (.success (t + 1))
      else
        let attempt1 := attempt + 1
        if heal t then runStepLoop maxRetries exec heal fuel attempt1 (t + 1)
        else if maxRetries ≤ attempt1 then some (.raised (t + 1))
        else runStepLoop maxRetries exec heal fuel attempt1 (t + 1)

/-- MCPBase.run over a step list: each step runs its retry loop; a
raised step aborts the remaining steps (the exception propagates). -/
def MCPBase_run (maxRetries fuel : Nat) :
    List ((Nat → Bool) × (Nat → Bool)) → Option (List StepEnd)
  | [] => some []
  | (exec, heal) :: rest =>
      match runStepLoop maxRetries exec heal fuel 0 0 with
      | none => none
      | some (.success n) =>
          (MCPBase_run maxRetries fuel rest).map (fun l => .success n :: l)
      | some (.raised n) => some [.raised n]

end Mcp


namespace NlSql

open Py

/-- The assertion callback attached to a translation, identified by
which closure english_to_sql builds: after an insert, a parameterized
COUNT query must be positive; for verify-exists, the current cursor row
count must be positive; after a delete, the parameterized COUNT must be
zero. -/
inductive SQLAssert where
  | insertedExists (name : String)
  | existsPositive (name : String)
  | deletedAbsent (name : String)
deriving DecidableEq, Repr

/-- Result of english_to_sql: the SQL text and the optional assertion
(src/enterprise_automation_framework_final/src/automation_framework/utils/natural_language_sql.py
lines 17-20). -/
structure SQLTranslation where
  sql : String
  assertion : Option SQLAssert
deriving DecidableEq, Repr

/-- Model of re.match(pattern-literal followed by a dot-plus group,
cmd): the literal must start the string and the group is the non-empty
run up to the first newline (regex dot does not cross newlines; match
is anchored at the start only). -/
def matchAfter (lit : String) (cmd : String) : Option String :=
  if startsWithChars lit.data cmd.data then
    let rest := cmd.data.drop lit.data.length
    let grp := rest.takeWhile (fun c => c ≠ '\n')
    if grp.isEmpty then none else some ⟨grp⟩
  else none

/-- Python str.title on ASCII: the first alphabetic character of each
alphabetic run is upper-cased, the rest lower-cased. -/
def titleChars : Bool → List Char → List Char
  | _, [] => []
  | prevAlpha, c :: cs =>
      if c.isAlpha then
        (if prevAlpha then c.toLower else c.toUpper) :: titleChars true cs
      else c :: titleChars false cs

/-- Python str.title wrapper. -/
def pyTitle (s : String) : String := ⟨titleChars false s.data⟩

/-- Translation of english_to_sql
(src/enterprise_automation_framework_final/src/automation_framework/utils/natural_language_sql.py
lines 23-75): lower-case and strip the command, try the three verb
patterns in order, interpolate the title-cased name directly into the
SQL text, and fall back to returning the command unchanged with no
assertion. -/
def english_to_sql (command : String) : SQLTranslation :=
  let cmd := lowerPy (pyStrip command)
  match matchAfter "insert user " cmd with
  | some g =>
      let name := pyTitle g
      { sql := "INSERT INTO users (name) VALUES (" ++ sQuote ++ name ++ sQuote ++ ");",
        assertion := some (.insertedExists name) }
  | none =>
  match matchAfter "verify exists user " cmd with
  | some g =>
      let name := pyTitle g
      { sql := "SELECT COUNT(*) FROM users WHERE name=" ++ sQuote ++ name ++ sQuote ++ ";",
        assertion := some (.existsPositive name) }
  | none =>
  match matchAfter "delete user " cmd with
  | some g =>
      let name := pyTitle g
      { sql := "DELETE FROM users WHERE name=" ++ sQuote ++ name ++ sQuote ++ ";",
        assertion := some (.deletedAbsent name) }
  | none => { sql := command, assertion := none }

/-- A SQL text is parameterized when it carries a question-mark
placeholder (the qmark paramstyle the repository uses in every
cursor.execute with bound values). -/
def usesPlaceholder (sql : String) : Bool :=
  sql.data.any (fun c => c = Char.ofNat 63)

end NlSql

namespace Router

open Py

/-- A test case as the router sees it (dataclass TestCase in
src/src/automation_framework/mcp_router.py lines 28-32). -/
structure RouterTestCase where
  identifier : String
  steps : List Step
  type? : Option String

/-- The combined classification text: each step dict serialized with
json.dumps (insertion order, no key sorting) and joined by newlines. -/
def combinedText (steps : List Step) : String :=
  String.intercalate "\n" (steps.map (fun st => jsonVal false (.pobj st)))

/-- The keyword scan of MCPRouter._classify: categories in dict order
ui, api, mobile, sql; a category wins when any of its keywords,
lower-cased, occurs in the lower-cased combined text. -/
def kwFind : List (String × List String) → String → Option String
  | [], _ => none
  | (cat, kws) :: rest, textLower =>
      if kws.any (fun kw => hasSubstring textLower.data (lowerPy kw).data) then some cat
      else kwFind rest textLower

/-- Translation of MCPRouter._classify
(src/src/automation_framework/mcp_router.py lines 69-98).  llm models
self.llm: none when no client was constructed; some f otherwise, where
f returning none models classify raising an exception and some r the
returned category — the router uses r verbatim, with no validation.
An explicit non-empty type short-circuits everything, lower-cased. -/
def MCPRouter_classify (llm : Option (String → Option String))
    (uiKw apiKw mobileKw sqlKw : List String) (tc : RouterTestCase) : String :=
  let combined := combinedText tc.steps
  let keywordResult :=
    match kwFind [("ui", uiKw), ("api", apiKw), ("mobile", mobileKw), ("sql", sqlKw)]
      (lowerPy combined) with
    | some cat => cat
    | none => "api"
  let classified :=
    match llm with
    | some f =>
        match f combined with
        | some r => r
        | none => keywordResult
    | none => keywordResult
  match tc.type? with
  | some t => if t.isEmpty then classified else lowerPy t
  | none => classified

/-- Translation of LLMAgent._heuristic_classify
(src/enterprise_automation_framework_final/llm_integration/llm_agent.py
lines 514-538): keyword buckets checked in order ui, api, mobile, sql
against the lower-cased text (the keywords themselves are NOT
lower-cased here), defaulting to ui. -/
def LLMAgent_heuristic_classify (uiKw apiKw mobileKw sqlKw : List String)
    (text : String) : String :=
  let textLower := lowerPy text
  if uiKw.any (fun kw => hasSubstring textLower.data kw.data) then "ui"
  else if apiKw.any (fun kw => hasSubstring textLower.data kw.data) then "api"
  else if mobileKw.any (fun kw => hasSubstring textLower.data kw.data) then "mobile"
  else if sqlKw.any (fun kw => hasSubstring textLower.data kw.data) then "sql"
  else "ui"

/-- Translation of LLMAgent.classify (llm_agent.py lines 493-512).
hasProvider models self.active_provider truthiness; response the
Optional string _call_llm returns (none or the empty string are falsy).
A recognized category is returned; anything else falls back to the
keyword heuristic. -/
def LLMAgent_classify (hasProvider : Bool) (response : Option String)
    (uiKw apiKw mobileKw sqlKw : List String) (text : String) : String :=
  if !hasProvider then LLMAgent_heuristic_classify uiKw apiKw mobileKw sqlKw text
  else
    match response with
    | some r =>
        if r.isEmpty then LLMAgent_heuristic_classify uiKw apiKw mobileKw sqlKw text
        else
          let category := lowerPy (pyStrip r)
          if category == "ui" || category == "api" || category == "mobile"
              || category == "sql" then category
          else LLMAgent_heuristic_classify uiKw apiKw mobileKw sqlKw text
    | none => LLMAgent_heuristic_classify uiKw apiKw mobileKw sqlKw text

end Router

namespace Versioning

open Py

/-- One row of test_set_versions (timestamp omitted: wall clock; the
test_cases_json snapshot is modelled by the parsed case list, as JSON
round-tripping is the identity on these values). -/
structure VRow where
  user_story : String
  version_number : Nat
  author : String
  similarity : Rat
  cases : List Step

/-- Diff of two case lists by identifier
(version_manager.py lines 121-131). -/
structure VDiff where
  added : List Step
  removed : List Step
  unchanged : List Step

/-- Return value of add_version (version id elided: it is the SQLite
rowid, determined by the row's position). -/
structure VResult where
  version_number : Nat
  similarity : Rat
  diff : VDiff

/-- SELECT ... ORDER BY version_number DESC LIMIT 1 for a story: the
first row with the greatest version number (add_version never creates
ties). -/
def latestVersion (db : List VRow) (story : String) : Option VRow :=
  (db.filter (fun r => r.user_story == story)).foldl
    (fun acc r =>
      match acc with
      | none => some r
      | some b => if b.version_number < r.version_number then some r else some b)
    none

/-- The canonical text both similarity methods compare: each case
serialized by json.dumps with sort_keys=True, joined by newlines. -/
def serializeCases (cases : List Step) : String :=
  String.intercalate "\n" (cases.map (fun tc => jsonVal true (.pobj tc)))

/-- Translation of VersionManager._compute_similarity
(version_manager.py lines 81-108).  The two similarity primitives are
external: embedSim models the TF-IDF cosine of scikit-learn (none when
the import or computation raises), ratioFn models
difflib.SequenceMatcher(None, old_text, new_text).ratio(). -/
def compute_similarity (method : String)
    (embedSim : List Step → List Step → Option Rat)
    (ratioFn : String → String → Rat)
    (old_cases new_cases : List Step) : Rat :=
  if lowerPy method == "embedding" then
    match embedSim old_cases new_cases with
    | some v => v
    | none => ratioFn (serializeCases old_cases) (serializeCases new_cases)
  else ratioFn (serializeCases old_cases) (serializeCases new_cases)

/-- Python dict building keyed by c.get("identifier"): first-occurrence
order, later value wins. -/
def dictInsert (m : List (Option PyVal × Step)) (k : Option PyVal) (v : Step) :
    List (Option PyVal × Step) :=
  if m.any (fun p => optPyBeq p.1 k) then
    m.map (fun p => if optPyBeq p.1 k then (p.1, v) else p)
  else m ++ [(k, v)]

/-- The comprehension building an identifier-keyed map of cases. -/
def buildMap (cases : List Step) : List (Option PyVal × Step) :=
  cases.foldl (fun m c => dictInsert m (Step.get? c "identifier") c) []

/-- Diff computation of add_version: iterate the new map appending
unchanged or added, then the old map appending removed. -/
def diffByIdentifier (old_cases new_cases : List Step) : VDiff :=
  let oldMap := buildMap old_cases
  let newMap := buildMap new_cases
  let unchanged := (newMap.filter (fun p => oldMap.any (fun q => optPyBeq q.1 p.1))).map
    (fun p => p.2)
  let added := (newMap.filter (fun p => !oldMap.any (fun q => optPyBeq q.1 p.1))).map
    (fun p => p.2)
  let removed := (oldMap.filter (fun p => !newMap.any (fun q => optPyBeq q.1 p.1))).map
    (fun p => p.2)
  ⟨added, removed, unchanged⟩

/-- Translation of VersionManager.add_version (version_manager.py lines
110-170): the new version number is latest + 1 (1 when none),
similarity is 0.0 for a first version and _compute_similarity against
the latest otherwise, the diff matches identifiers, and the new row is
always inserted. -/
def add_version (method : String)
    (embedSim : List Step → List Step → Option Rat)
    (ratioFn : String → String → Rat)
    (db : List VRow) (story : String) (cases : List Step) (author : String) :
    List VRow × VResult :=
  let latest := latestVersion db story
  let vn :=
    match latest with
    | some r => r.version_number + 1
    | none => 1
  let sim :=
    match latest with
    | some r => compute_similarity method embedSim ratioFn r.cases cases
    | none => 0
  let diff :=
    match latest with
    | some r => diffByIdentifier r.cases cases
    | none => ⟨cases, [], []⟩
  (db ++ [⟨story, vn, author, sim, cases⟩], ⟨vn, sim, diff⟩)

end Versioning

namespace Drivers

/-- Appending one record keeps the status recorded for a smaller index. -/
theorem recordedStatus_append_ne (records : List (Nat × String)) (idx j : Nat) (x : String)
    (h : j ≠ idx) :
    recordedStatus (records ++ [(idx, x)]) j = recordedStatus records j := by
  unfold recordedStatus
  rw [List.find?_append]
  cases hf : records.find? (fun r => r.1 == j) <;>
    simp [hf, Option.or, Ne.symm h]

/-- One loop iteration appends exactly one row, at the current index. -/
theorem runStepDrv_records (s : RunState) (idx : Nat) (st : DrvStep) :
    (runStepDrv s idx st).records = s.records ++ [(idx, stepStatusOf s.records st)] := by
  unfold runStepDrv stepStatusOf
  split
  · rfl
  · cases st.exec <;> rfl

/-- The attempted list grows only when the dependency check passes. -/
theorem runStepDrv_attempted (s : RunState) (idx : Nat) (st : DrvStep) :
    (runStepDrv s idx st).attempted =
      if skipsByDep s.records st then s.attempted else s.attempted ++ [idx] := by
  unfold runStepDrv
  split
  · simp_all
  · simp_all
    cases st.exec <;> rfl

/-- Counter increments of one iteration, per recorded status. -/
theorem runStepDrv_counts (s : RunState) (idx : Nat) (st : DrvStep) :
    (runStepDrv s idx st).passed
        = s.passed + (if stepStatusOf s.records st = "passed" then 1 else 0)
  ∧ (runStepDrv s idx st).failed
        = s.failed + (if stepStatusOf s.records st = "failed" then 1 else 0)
  ∧ (runStepDrv s idx st).skipped
        = s.skipped + (if stepStatusOf s.records st = "skipped" then 1 else 0) := by
  unfold runStepDrv stepStatusOf
  split
  · simp
  · cases st.exec <;> simp [execStatus]

/-- The three counters always equal the corresponding status counts over
the recorded rows. -/
theorem runSteps_counters (rest : List DrvStep) : ∀ (idx : Nat) (s : RunState),
    s.passed = s.records.countP (fun r => r.2 == "passed") →
    s.failed = s.records.countP (fun r => r.2 == "failed") →
    s.skipped = s.records.countP (fun r => r.2 == "skipped") →
    (runSteps idx s rest).passed
        = (runSteps idx s rest).records.countP (fun r => r.2 == "passed")
    ∧ (runSteps idx s rest).failed
        = (runSteps idx s rest).records.countP (fun r => r.2 == "failed")
    ∧ (runSteps idx s rest).skipped
        = (runSteps idx s rest).records.countP (fun r => r.2 == "skipped") := by
  induction rest with
  | nil => intro idx s hp hf hs; exact ⟨hp, hf, hs⟩
  | cons st rest ih =>
      intro idx s hp hf hs
      have hrec := runStepDrv_records s idx st
      have hcnt := runStepDrv_counts s idx st
      refine ih (idx + 1) (runStepDrv s idx st) ?_ ?_ ?_
      · rw [hcnt.1, hrec, List.countP_append, hp]
        simp [List.countP_cons, beq_iff_eq]
      · rw [hcnt.2.1, hrec, List.countP_append, hf]
        simp [List.countP_cons, beq_iff_eq]
      · rw [hcnt.2.2, hrec, List.countP_append, hs]
        simp [List.countP_cons, beq_iff_eq]

/-- The web derivation coincides with the formula as the spec words it. -/
theorem webOverallStatus_eq_claim (p f s : Nat) :
    webOverallStatus p f s = claimAggregate p f s := by
  unfold webOverallStatus claimAggregate
  split_ifs <;> simp_all

/-- The API derivation is the web derivation, line for line. -/
theorem apiOverallStatus_eq_web (p f s : Nat) :
    apiOverallStatus p f s = webOverallStatus p f s := rfl

/-- The mobile derivation is the web derivation, line for line. -/
theorem mobileOverallStatus_eq_web (p f s : Nat) :
    mobileOverallStatus p f s = webOverallStatus p f s := rfl

/-- C1: for every step sequence run by a backend driver, with P, F and S
the counts of steps recorded passed, failed and skipped, the final
aggregate status is exactly the spec formula — skipped when P + F = 0
and S > 0, else passed when F = 0 and S = 0, else failed when F = P + F,
else partial — and the API and mobile drivers derive it identically to
the web driver. -/
theorem C1_aggregate_status_derivation (steps : List DrvStep) :
    web_run_test_case steps
        = claimAggregate
            ((runCase steps).records.countP (fun r => r.2 == "passed"))
            ((runCase steps).records.countP (fun r => r.2 == "failed"))
            ((runCase steps).records.countP (fun r => r.2 == "skipped"))
      ∧ api_run_test_case steps = web_run_test_case steps
      ∧ mobile_run_test_case steps = web_run_test_case steps := by
  have h := runSteps_counters steps 0 initState rfl rfl rfl
  refine ⟨?_, rfl, rfl⟩
  unfold web_run_test_case
  rw [webOverallStatus_eq_claim]
  unfold runCase at h ⊢
  rw [h.1, h.2.1, h.2.2]

/-- Rows already recorded all carry indices below the bound after one
more iteration at that bound. -/
theorem runStepDrv_records_bound (s : RunState) (idx : Nat) (st : DrvStep)
    (h : ∀ p ∈ s.records, p.1 < idx) :
    ∀ p ∈ (runStepDrv s idx st).records, p.1 < idx + 1 := by
  intro p hp
  rw [runStepDrv_records] at hp
  rcases List.mem_append.mp hp with h1 | h1
  · exact Nat.lt_succ_of_lt (h p h1)
  · rw [List.mem_singleton] at h1
    subst h1
    exact Nat.lt_succ_self idx

/-- Statuses of already-recorded indices never change as the loop runs on. -/
theorem runSteps_recordedStatus_stable (rest : List DrvStep) : ∀ (idx : Nat) (s : RunState),
    (∀ p ∈ s.records, p.1 < idx) → ∀ j, j < idx →
    recordedStatus (runSteps idx s rest).records j = recordedStatus s.records j := by
  induction rest with
  | nil => intro idx s _ j _; rfl
  | cons st rest ih =>
      intro idx s hb j hj
      have hb1 := runStepDrv_records_bound s idx st hb
      have := ih (idx + 1) (runStepDrv s idx st) hb1 j (Nat.lt_succ_of_lt hj)
      rw [runSteps, this, runStepDrv_records,
        recordedStatus_append_ne _ _ _ _ (Nat.ne_of_lt hj)]

/-- Indices attempted during the remaining loop are old or at least the
current index. -/
theorem runSteps_attempted_mono (rest : List DrvStep) : ∀ (idx : Nat) (s : RunState) (a : Nat),
    a ∈ (runSteps idx s rest).attempted → a ∈ s.attempted ∨ idx ≤ a := by
  induction rest with
  | nil => intro idx s a h; exact Or.inl h
  | cons st rest ih =>
      intro idx s a h
      rcases ih (idx + 1) (runStepDrv s idx st) a h with h1 | h1
      · rw [runStepDrv_attempted] at h1
        split at h1
        · exact Or.inl h1
        · rcases List.mem_append.mp h1 with h2 | h2
          · exact Or.inl h2
          · simp at h2
            omega
      · omega

/-- A find? for an index above every recorded index yields nothing. -/
theorem find?_idx_none (records : List (Nat × String)) (idx : Nat)
    (h : ∀ p ∈ records, p.1 < idx) :
    records.find? (fun r => r.1 == idx) = none := by
  rw [List.find?_eq_none]
  intro p hp
  simp only [beq_iff_eq]
  exact Nat.ne_of_lt (h p hp)

/-- The row just appended at a fresh index is the one found for it. -/
theorem recordedStatus_fresh_append (records : List (Nat × String)) (idx : Nat) (x : String)
    (h : ∀ p ∈ records, p.1 < idx) :
    recordedStatus (records ++ [(idx, x)]) idx = some x := by
  unfold recordedStatus
  rw [List.find?_append, find?_idx_none records idx h]
  simp [Option.or]

/-- A recorded failed or skipped status makes the dependency scan fire. -/
theorem depUnmet_of_recorded (records : List (Nat × String)) (j : Nat)
    (h : recordedStatus records j = some "failed" ∨
         recordedStatus records j = some "skipped") :
    depUnmet records ((j : Nat) : Int) = true := by
  unfold recordedStatus at h
  unfold depUnmet
  rw [List.any_eq_true]
  rcases h with h | h <;>
  · cases hf : records.find? (fun r => r.1 == j) with
    | none => rw [hf] at h; simp at h
    | some p =>
        rw [hf] at h
        simp only [Option.map_some', Option.some.injEq] at h
        have hmem := List.mem_of_find?_eq_some hf
        have hpj : p.1 = j := by
          have := List.find?_some hf
          simpa using this
        refine ⟨p, hmem, ?_⟩
        simp [hpj, h]

/-- Attempted indices stay below the bound after one more iteration. -/
theorem runStepDrv_attempted_bound (s : RunState) (idx : Nat) (st : DrvStep)
    (h : ∀ a ∈ s.attempted, a < idx) :
    ∀ a ∈ (runStepDrv s idx st).attempted, a < idx + 1 := by
  intro a ha
  rw [runStepDrv_attempted] at ha
  split at ha
  · exact Nat.lt_succ_of_lt (h a ha)
  · rcases List.mem_append.mp ha with h2 | h2
    · exact Nat.lt_succ_of_lt (h a h2)
    · rw [List.mem_singleton] at h2
      omega

/-- Dependency skipping, generalized over a running loop: a step whose
depends_on names an index recorded failed or skipped ends up recorded
skipped and is never attempted. -/
theorem runSteps_depSkip (rest : List DrvStep) : ∀ (idx0 : Nat) (s : RunState),
    (∀ p ∈ s.records, p.1 < idx0) →
    (∀ a ∈ s.attempted, a < idx0) →
    ∀ (k : Nat) (hk : k < rest.length) (j : Nat),
      (rest.get ⟨k, hk⟩).depends_on = some ((j : Nat) : Int) →
      j < idx0 + k →
      (recordedStatus (runSteps idx0 s rest).records j = some "failed" ∨
       recordedStatus (runSteps idx0 s rest).records j = some "skipped") →
      recordedStatus (runSteps idx0 s rest).records (idx0 + k) = some "skipped" ∧
        (idx0 + k) ∉ (runSteps idx0 s rest).attempted := by
  induction rest with
  | nil =>
      intro idx0 s _ _ k hk
      exact absurd hk (by simp)
  | cons st rest ih =>
      intro idx0 s hrec hatt k hk j hdep hjk hst
      cases k with
      | zero =>
          simp only [Nat.add_zero] at hjk ⊢
          have hj0 : j < idx0 := hjk
          have hb1 := runStepDrv_records_bound s idx0 st hrec
          rw [runSteps] at hst ⊢
          rw [runSteps_recordedStatus_stable rest (idx0 + 1) _ hb1 j
            (Nat.lt_succ_of_lt hj0)] at hst
          rw [runStepDrv_records] at hst
          rw [recordedStatus_append_ne _ _ _ _ (Nat.ne_of_lt hj0)] at hst
          have hdep' : st.depends_on = some ((j : Nat) : Int) := hdep
          have hunmet := depUnmet_of_recorded s.records j hst
          have hskip : skipsByDep s.records st = true := by
            unfold skipsByDep
            rw [hdep']
            exact hunmet
          have hstat : stepStatusOf s.records st = "skipped" := by
            unfold stepStatusOf
            rw [hskip]
            rfl
          constructor
          · rw [runSteps_recordedStatus_stable rest (idx0 + 1) _ hb1 idx0
              (Nat.lt_succ_self idx0)]
            rw [runStepDrv_records, hstat]
            exact recordedStatus_fresh_append s.records idx0 "skipped" hrec
          · intro hmem
            rcases runSteps_attempted_mono rest (idx0 + 1) _ idx0 hmem with h1 | h1
            · rw [runStepDrv_attempted, if_pos hskip] at h1
              exact absurd (hatt _ h1) (by omega)
            · omega
      | succ k =>
          have hb1 := runStepDrv_records_bound s idx0 st hrec
          have hatt1 := runStepDrv_attempted_bound s idx0 st hatt
          have hk1 : k < rest.length := by
            simpa using Nat.lt_of_succ_lt_succ hk
          have heq : idx0 + (k + 1) = (idx0 + 1) + k := by omega
          rw [runSteps] at hst ⊢
          rw [heq]
          exact ih (idx0 + 1) (runStepDrv s idx0 st) hb1 hatt1 k hk1 j hdep
            (by omega) hst

/-- C4: in the shared run loop of the UI, API and mobile drivers, a step
whose depends_on field is the integer index of an earlier step recorded
failed or skipped is itself recorded skipped, and its backend
step-execution body is never invoked. -/
theorem C4_dependency_unmet_skips_step (steps : List DrvStep) (idx j : Nat)
    (hidx : idx < steps.length)
    (hdep : (steps.get ⟨idx, hidx⟩).depends_on = some ((j : Nat) : Int))
    (hj : j < idx)
    (hst : recordedStatus (runCase steps).records j = some "failed" ∨
           recordedStatus (runCase steps).records j = some "skipped") :
    recordedStatus (runCase steps).records idx = some "skipped" ∧
      idx ∉ (runCase steps).attempted := by
  unfold runCase at hst ⊢
  have h := runSteps_depSkip steps 0 initState
    (by intro p hp; simp [initState] at hp)
    (by intro a ha; simp [initState] at ha)
    idx hidx j hdep (by omega) hst
  simpa using h

/-- Witness for C4: a two-step run where step 0 fails and step 1 depends
on it; step 1 is recorded skipped and never attempted. -/
theorem C4_dependency_unmet_witness :
    recordedStatus (runCase [⟨none, .err⟩, ⟨some 0, .ok⟩]).records 1 = some "skipped" ∧
      1 ∉ (runCase [⟨none, .err⟩, ⟨some 0, .ok⟩]).attempted :=
  C4_dependency_unmet_skips_step [⟨none, .err⟩, ⟨some 0, .ok⟩] 1 0 (by decide) rfl
    (by decide) (Or.inl (by decide))

/-- C5: the claim says an empty step sequence yields aggregate status
skipped; the code of all three drivers yields passed on empty steps
(P = F = S = 0 falls into the passed branch), contradicting the
WebDriver.run_test_case docstring, which promises skipped. -/
theorem C5_empty_steps_pass :
    web_run_test_case [] = "passed" ∧ api_run_test_case [] = "passed" ∧
      mobile_run_test_case [] = "passed" :=
  ⟨rfl, rfl, rfl⟩

end Drivers

namespace Mcp

/-- C3: the claim (and the _self_heal docstring) says a successful
self-heal retries the step without the attempt counter having been
incremented for that failure, so that after a successful heal up to
max_retries true attempts remain.  The code increments attempt before
invoking self-heal: with max_retries = 3, execution always failing and
the heal succeeding exactly on the first failure, the loop raises after
3 total execution calls — the same total as with no successful heal at
all — instead of permitting 1 + 3 = 4 calls. -/
theorem C3_healed_failure_consumes_attempt :
    runStepLoop 3 (fun _ => false) (fun t => t == 0) 10 0 0 =
        some (StepEnd.raised 3)
      ∧ runStepLoop 3 (fun _ => false) (fun _ => false) 10 0 0 =
        some (StepEnd.raised 3) := by
  constructor <;> decide

end Mcp

namespace LocatorKeys

/-- C6 counterexample: the claim puts target in the fallback field list
of compute_step_key, but LocatorRepo.compute_step_key
(src/src/automation_framework/utils/locator_repo.py) omits it: a step
whose only descriptive field is target falls through to the whole-step
serialization there, while the enterprise LocatorRepository returns
action:target as claimed. -/
theorem C6_target_field_counterexample :
    LocatorRepo_compute_step_key [("action", .pstr "click"), ("target", .pstr "Login")]
        = "click:\x7b\"action\": \"click\", \"target\": \"Login\"\x7d"
      ∧ LocatorRepo_compute_step_key [("action", .pstr "click"), ("target", .pstr "Login")]
        ≠ "click:Login"
      ∧ LocatorRepository_compute_step_key [("action", .pstr "click"), ("target", .pstr "Login")]
        = "click:Login" := by
  refine ⟨by decide, by decide, by decide⟩

/-- C6 as amended: both compute_step_key implementations are
deterministic functions preferring an explicit selector field, else a
locator field serialized with sorted keys, else the first present field
of an ordered list — element, label, text, value, placeholder, target
in the enterprise LocatorRepository, but without target in
LocatorRepo — else the sorted-key serialization of the whole step. -/
theorem C6_compute_step_key_amended (step : Py.Step) :
    (∀ v, Py.Step.get? step "selector" = some v →
        LocatorRepo_compute_step_key step
            = Py.pyFstr ((Py.Step.get? step "action").getD (.pstr "unknown")) ++ ":"
                ++ Py.pyFstr v
          ∧ LocatorRepository_compute_step_key step
            = Py.pyFstr ((Py.Step.get? step "action").getD (.pstr "unknown")) ++ ":"
                ++ Py.pyFstr v)
  ∧ (Py.Step.get? step "selector" = none →
      ∀ v, Py.Step.get? step "locator" = some v →
        LocatorRepo_compute_step_key step
            = Py.pyFstr ((Py.Step.get? step "action").getD (.pstr "unknown")) ++ ":"
                ++ Py.jsonVal true v
          ∧ LocatorRepository_compute_step_key step
            = Py.pyFstr ((Py.Step.get? step "action").getD (.pstr "unknown")) ++ ":"
                ++ Py.jsonVal true v)
  ∧ (Py.Step.get? step "selector" = none → Py.Step.get? step "locator" = none →
      ∀ v, firstPresent repoFieldOrder step = some v →
        LocatorRepo_compute_step_key step
          = Py.pyFstr ((Py.Step.get? step "action").getD (.pstr "unknown")) ++ ":"
              ++ Py.pyFstr v)
  ∧ (Py.Step.get? step "selector" = none → Py.Step.get? step "locator" = none →
      ∀ v, firstPresent enterpriseFieldOrder step = some v →
        LocatorRepository_compute_step_key step
          = Py.pyFstr ((Py.Step.get? step "action").getD (.pstr "unknown")) ++ ":"
              ++ Py.pyFstr v)
  ∧ (Py.Step.get? step "selector" = none → Py.Step.get? step "locator" = none →
      firstPresent repoFieldOrder step = none →
        LocatorRepo_compute_step_key step
          = Py.pyFstr ((Py.Step.get? step "action").getD (.pstr "unknown")) ++ ":"
              ++ Py.fullStepJson step)
  ∧ (Py.Step.get? step "selector" = none → Py.Step.get? step "locator" = none →
      firstPresent enterpriseFieldOrder step = none →
        LocatorRepository_compute_step_key step
          = Py.pyFstr ((Py.Step.get? step "action").getD (.pstr "unknown")) ++ ":"
              ++ Py.fullStepJson step) := by
  refine ⟨?_, ?_, ?_, ?_, ?_, ?_⟩ <;>
    intros <;>
    simp_all [LocatorRepo_compute_step_key, LocatorRepository_compute_step_key,
      computeStepKeyWith]

/-- Witness for C6 as amended: for a step with only action and target,
the enterprise implementation keys on the target field. -/
theorem C6_compute_step_key_witness :
    LocatorRepository_compute_step_key
        [("action", .pstr "click"), ("target", .pstr "Login")] = "click:Login" := by
  have h := (C6_compute_step_key_amended
      [("action", .pstr "click"), ("target", .pstr "Login")]).2.2.2.1
    rfl rfl (.pstr "Login") rfl
  rw [h]
  decide

end LocatorKeys

namespace NlSql

open Py

/-- C9 counterexample: the claim says the recognized patterns produce
parameterized SQL statements; english_to_sql interpolates the
title-cased name directly into the SQL text — the statement for
insert user bob embeds the literal Bob and carries no qmark
placeholder. -/
theorem C9_interpolated_sql_counterexample :
    english_to_sql "insert user bob"
        = { sql := "INSERT INTO users (name) VALUES (" ++ sQuote ++ "Bob" ++ sQuote ++ ");",
            assertion := some (.insertedExists "Bob") }
      ∧ usesPlaceholder (english_to_sql "insert user bob").sql = false := by
  constructor <;> decide

/-- C9 as amended: english_to_sql recognizes exactly the three command
patterns insert user, verify exists user and delete user (after
stripping and lower-casing, so case-insensitively), producing for each a
SQL statement with the title-cased name interpolated directly into the
text (not a parameterized statement; the assertion closures issue the
parameterized queries) together with an existence-count assertion, and
returns every other command unchanged as raw SQL with no assertion. -/
theorem C9_english_to_sql_amended (command : String) :
    (∀ g, matchAfter "insert user " (lowerPy (pyStrip command)) = some g →
        english_to_sql command
          = { sql := "INSERT INTO users (name) VALUES ("
                ++ sQuote ++ pyTitle g ++ sQuote ++ ");",
              assertion := some (.insertedExists (pyTitle g)) })
  ∧ (matchAfter "insert user " (lowerPy (pyStrip command)) = none →
      ∀ g, matchAfter "verify exists user " (lowerPy (pyStrip command)) = some g →
        english_to_sql command
          = { sql := "SELECT COUNT(*) FROM users WHERE name="
                ++ sQuote ++ pyTitle g ++ sQuote ++ ";",
              assertion := some (.existsPositive (pyTitle g)) })
  ∧ (matchAfter "insert user " (lowerPy (pyStrip command)) = none →
      matchAfter "verify exists user " (lowerPy (pyStrip command)) = none →
      ∀ g, matchAfter "delete user " (lowerPy (pyStrip command)) = some g →
        english_to_sql command
          = { sql := "DELETE FROM users WHERE name="
                ++ sQuote ++ pyTitle g ++ sQuote ++ ";",
              assertion := some (.deletedAbsent (pyTitle g)) })
  ∧ (matchAfter "insert user " (lowerPy (pyStrip command)) = none →
      matchAfter "verify exists user " (lowerPy (pyStrip command)) = none →
      matchAfter "delete user " (lowerPy (pyStrip command)) = none →
        english_to_sql command = { sql := command, assertion := none }) := by
  refine ⟨?_, ?_, ?_, ?_⟩ <;> intros <;> simp_all [english_to_sql]

/-- Witness for C9 as amended: the verify pattern, case-insensitively,
yields the COUNT query with the interpolated title-cased name. -/
theorem C9_english_to_sql_witness :
    english_to_sql "verify exists user alice"
      = { sql := "SELECT COUNT(*) FROM users WHERE name="
            ++ sQuote ++ "Alice" ++ sQuote ++ ";",
          assertion := some (.existsPositive "Alice") } := by
  have h := (C9_english_to_sql_amended "verify exists user alice").2.1
    (by decide) "alice" (by decide)
  rw [h]
  decide

end NlSql

namespace Router

open Py

/-- C7 counterexample: the claim says an unrecognized translator
response makes the router fall back to keyword checks and, with no
keyword match, return api; MCPRouter._classify returns the translator
response verbatim without validating it. -/
theorem C7_unvalidated_response_counterexample :
    MCPRouter_classify (some (fun _ => some "banana")) [] [] [] []
        ⟨"tc1", [[("action", .pstr "click")]], none⟩ = "banana"
      ∧ ("banana" : String) ≠ "api" := by
  constructor
  · rfl
  · decide

/-- C7 as amended: the router returns an explicit non-empty type
lower-cased; otherwise it returns the translator's response verbatim
whenever one is returned, even unrecognized; only when the translator
raises does it scan the keyword buckets in order ui, api, mobile, sql,
returning api when none matches.  Response validation lives instead in
LLMAgent.classify, which falls back to its keyword heuristic on an
unrecognized response — and that heuristic defaults to ui, not api. -/
theorem C7_classify_amended :
    (∀ llm uiKw apiKw mobileKw sqlKw id steps t, t ≠ "" →
        MCPRouter_classify llm uiKw apiKw mobileKw sqlKw ⟨id, steps, some t⟩ = lowerPy t)
  ∧ (∀ f uiKw apiKw mobileKw sqlKw id steps r, f (combinedText steps) = some r →
        MCPRouter_classify (some f) uiKw apiKw mobileKw sqlKw ⟨id, steps, none⟩ = r)
  ∧ (∀ f uiKw apiKw mobileKw sqlKw id steps cat, f (combinedText steps) = none →
        kwFind [("ui", uiKw), ("api", apiKw), ("mobile", mobileKw), ("sql", sqlKw)]
            (lowerPy (combinedText steps)) = some cat →
        MCPRouter_classify (some f) uiKw apiKw mobileKw sqlKw ⟨id, steps, none⟩ = cat)
  ∧ (∀ f uiKw apiKw mobileKw sqlKw id steps, f (combinedText steps) = none →
        kwFind [("ui", uiKw), ("api", apiKw), ("mobile", mobileKw), ("sql", sqlKw)]
            (lowerPy (combinedText steps)) = none →
        MCPRouter_classify (some f) uiKw apiKw mobileKw sqlKw ⟨id, steps, none⟩ = "api")
  ∧ (∀ r uiKw apiKw mobileKw sqlKw text, r ≠ "" →
        lowerPy (pyStrip r) ≠ "ui" → lowerPy (pyStrip r) ≠ "api" →
        lowerPy (pyStrip r) ≠ "mobile" → lowerPy (pyStrip r) ≠ "sql" →
        LLMAgent_classify true (some r) uiKw apiKw mobileKw sqlKw text
          = LLMAgent_heuristic_classify uiKw apiKw mobileKw sqlKw text)
  ∧ (∀ uiKw apiKw mobileKw sqlKw text,
        uiKw.any (fun kw => hasSubstring (lowerPy text).data kw.data) = false →
        apiKw.any (fun kw => hasSubstring (lowerPy text).data kw.data) = false →
        mobileKw.any (fun kw => hasSubstring (lowerPy text).data kw.data) = false →
        sqlKw.any (fun kw => hasSubstring (lowerPy text).data kw.data) = false →
        LLMAgent_heuristic_classify uiKw apiKw mobileKw sqlKw text = "ui") := by
  refine ⟨?_, ?_, ?_, ?_, ?_, ?_⟩
  · intro llm uiKw apiKw mobileKw sqlKw id steps t ht
    simp [MCPRouter_classify, String.isEmpty_iff, ht]
  · intro f uiKw apiKw mobileKw sqlKw id steps r hr
    simp [MCPRouter_classify, hr]
  · intro f uiKw apiKw mobileKw sqlKw id steps cat hf hkw
    simp [MCPRouter_classify, hf, hkw]
  · intro f uiKw apiKw mobileKw sqlKw id steps hf hkw
    simp [MCPRouter_classify, hf, hkw]
  · intro r uiKw apiKw mobileKw sqlKw text hr h1 h2 h3 h4
    simp [LLMAgent_classify, String.isEmpty_iff, hr, h1, h2, h3, h4]
  · intro uiKw apiKw mobileKw sqlKw text h1 h2 h3 h4
    simp [LLMAgent_heuristic_classify, h1, h2, h3, h4]

/-- Witness for C7 as amended: a raising translator with empty keyword
buckets classifies to the default api. -/
theorem C7_classify_witness :
    MCPRouter_classify (some (fun _ => none)) [] [] [] []
        ⟨"tc1", [[("action", .pstr "click")]], none⟩ = "api" :=
  C7_classify_amended.2.2.2.1 (fun _ => none) [] [] [] [] "tc1"
    [[("action", .pstr "click")]] rfl rfl

end Router

namespace LocatorStore

/-- Deactivation never changes the context. -/
theorem deactivateFor_context (ctx key : String) (r : LocRecord) :
    (deactivateFor ctx key r).context = r.context := by
  unfold deactivateFor
  split <;> rfl

/-- Deactivation never changes the step key. -/
theorem deactivateFor_step_key (ctx key : String) (r : LocRecord) :
    (deactivateFor ctx key r).step_key = r.step_key := by
  unfold deactivateFor
  split <;> rfl

/-- Deactivation never changes the locator type. -/
theorem deactivateFor_locator_type (ctx key : String) (r : LocRecord) :
    (deactivateFor ctx key r).locator_type = r.locator_type := by
  unfold deactivateFor
  split <;> rfl

/-- Deactivation never changes the locator value. -/
theorem deactivateFor_locator_value (ctx key : String) (r : LocRecord) :
    (deactivateFor ctx key r).locator_value = r.locator_value := by
  unfold deactivateFor
  split <;> rfl

/-- Deactivation never changes the version. -/
theorem deactivateFor_version (ctx key : String) (r : LocRecord) :
    (deactivateFor ctx key r).version = r.version := by
  unfold deactivateFor
  split <;> rfl

/-- Deactivation never changes whether a row matches the key. -/
theorem matchesKey_deactivateFor (ctx key : String) (r : LocRecord) :
    matchesKey ctx key (deactivateFor ctx key r) = matchesKey ctx key r := by
  unfold matchesKey
  rw [deactivateFor_context, deactivateFor_step_key]

/-- After deactivation no row both matches the key and is active. -/
theorem deactivateFor_not_active_match (ctx key : String) (r : LocRecord) :
    (matchesKey ctx key (deactivateFor ctx key r) && (deactivateFor ctx key r).is_active)
      = false := by
  unfold deactivateFor
  by_cases h : (matchesKey ctx key r && r.is_active) = true
  · simp [h]
  · simp only [h, if_neg, Bool.not_eq_true] at *

/-- A row matching the key is inactive after deactivation, whether or
not it was active before. -/
theorem deactivateFor_inactive_match (ctx key : String) (r : LocRecord)
    (h : matchesKey ctx key r = true) :
    (deactivateFor ctx key r).is_active = false := by
  unfold deactivateFor
  by_cases ha : r.is_active
  · simp [h, ha]
  · simp [h, ha]

/-- The deactivation pass does not change MAX(version) for the key. -/
theorem maxVersion_map_deactivate (db : List LocRecord) (ctx key : String) :
    maxVersion (db.map (deactivateFor ctx key)) ctx key = maxVersion db ctx key := by
  unfold maxVersion
  suffices h : ∀ acc : Option Int,
      ((db.map (deactivateFor ctx key)).filter (matchesKey ctx key)).foldl
          (fun acc r => match acc with
            | none => some r.version
            | some m => some (max m r.version)) acc
        = (db.filter (matchesKey ctx key)).foldl
          (fun acc r => match acc with
            | none => some r.version
            | some m => some (max m r.version)) acc by
    exact h none
  induction db with
  | nil => intro acc; rfl
  | cons r db ih =>
      intro acc
      simp only [List.map_cons, List.filter_cons, matchesKey_deactivateFor]
      by_cases h : matchesKey ctx key r
      · simp only [h, if_true, List.foldl_cons]
        have hv : (deactivateFor ctx key r).version = r.version :=
          deactivateFor_version ctx key r
        cases acc <;> simp only [hv] <;> exact ih _
      · simp only [h, Bool.false_eq_true, if_false]
        exact ih acc

/-- C2: after every successful add_locator call, exactly one stored row
for the (context, step_key) is active and it is the newly inserted one;
its version is 1 plus the greatest version previously stored for the
key (1 when none existed); and every previously stored row survives
with identical identity fields and version, rows for the key now marked
inactive. -/
theorem C2_add_locator_single_active_version (db : List LocRecord) (ctx key : String)
    (loc : Locator) (res : List LocRecord)
    (h : add_locator db ctx key loc = Except.ok res) :
    let nv : Int :=
      match maxVersion db ctx key with
      | some m => m + 1
      | none => 1
    let newRec : LocRecord :=
      ⟨ctx, key, loc.ltype.getD "", loc.lvalue.getD "", nv, true⟩
    res.countP (fun r => matchesKey ctx key r && r.is_active) = 1
  ∧ res.getLast? = some newRec
  ∧ (∀ r ∈ res, (matchesKey ctx key r && r.is_active) = true → r = newRec)
  ∧ res.length = db.length + 1
  ∧ (∀ r ∈ db, ∃ r2 ∈ res,
        r2.context = r.context ∧ r2.step_key = r.step_key ∧
        r2.locator_type = r.locator_type ∧ r2.locator_value = r.locator_value ∧
        r2.version = r.version ∧
        (matchesKey ctx key r = true → r2.is_active = false)) := by
  intro nv newRec
  unfold add_locator at h
  by_cases hv : (isFalsy loc.ltype || isFalsy loc.lvalue) = true
  · rw [if_pos hv] at h
    exact absurd h (by simp)
  · rw [if_neg hv] at h
    simp only [Except.ok.injEq, maxVersion_map_deactivate] at h
    have hres : res = db.map (deactivateFor ctx key) ++ [newRec] := h.symm
    subst hres
    refine ⟨?_, ?_, ?_, ?_, ?_⟩
    · rw [List.countP_append]
      have h0 : (db.map (deactivateFor ctx key)).countP
          (fun r => matchesKey ctx key r && r.is_active) = 0 := by
        rw [List.countP_eq_zero]
        intro a ha
        rcases List.mem_map.mp ha with ⟨r, _, hr⟩
        subst hr
        simp [deactivateFor_not_active_match]
      rw [h0]
      simp [matchesKey, newRec]
    · exact List.getLast?_concat _
    · intro r hr hact
      rcases List.mem_append.mp hr with h1 | h1
      · rcases List.mem_map.mp h1 with ⟨r0, _, hr0⟩
        subst hr0
        rw [deactivateFor_not_active_match] at hact
        exact absurd hact (by simp)
      · exact List.mem_singleton.mp h1
    · simp
    · intro r hr
      refine ⟨deactivateFor ctx key r, List.mem_append_left _ (List.mem_map_of_mem _ hr),
        deactivateFor_context ctx key r, deactivateFor_step_key ctx key r,
        deactivateFor_locator_type ctx key r, deactivateFor_locator_value ctx key r,
        deactivateFor_version ctx key r, deactivateFor_inactive_match ctx key r⟩

/-- Witness for C2: adding a second locator over one active row yields
exactly one active row for the key. -/
theorem C2_add_locator_witness :
    ([⟨"ui", "k", "css", "#a", 1, false⟩,
      ⟨"ui", "k", "css", "#b", 2, true⟩] : List LocRecord).countP
        (fun r => matchesKey "ui" "k" r && r.is_active) = 1 := by
  have h := C2_add_locator_single_active_version [⟨"ui", "k", "css", "#a", 1, true⟩]
    "ui" "k" ⟨some "css", some "#b"⟩
    [⟨"ui", "k", "css", "#a", 1, false⟩, ⟨"ui", "k", "css", "#b", 2, true⟩] rfl
  obtain ⟨h1, _, _, _, _⟩ := h
  exact h1

/-- C10: add_locator raises ValueError whenever the locator dict lacks a
truthy type or value; the check precedes every SQL statement, so the
error leaves the store exactly as it was — no row is inserted and the
previously active row, if any, stays active. -/
theorem C10_add_locator_invalid_error (db : List LocRecord) (ctx key : String)
    (loc : Locator)
    (h : isFalsy loc.ltype = true ∨ isFalsy loc.lvalue = true) :
    add_locator db ctx key loc = Except.error "Locator must have type and value fields" := by
  unfold add_locator
  rcases h with h | h <;> simp [h]

/-- Witness for C10: an empty type string is rejected. -/
theorem C10_add_locator_witness :
    add_locator [] "ui" "k" ⟨some "", some "x"⟩
      = Except.error "Locator must have type and value fields" :=
  C10_add_locator_invalid_error [] "ui" "k" ⟨some "", some "x"⟩ (Or.inl rfl)

end LocatorStore

namespace Versioning

/-- Appending a row with a strictly larger version number makes it the
latest version for its story. -/
theorem latestVersion_append (db : List VRow) (story : String) (row : VRow)
    (hstory : row.user_story = story)
    (hgt : ∀ b, latestVersion db story = some b →
      b.version_number < row.version_number) :
    latestVersion (db ++ [row]) story = some row := by
  unfold latestVersion at *
  rw [List.filter_append, List.foldl_append]
  simp only [List.filter_cons, List.filter_nil, hstory, beq_self_eq_true, if_true]
  cases hl : (db.filter (fun r => r.user_story == story)).foldl
      (fun acc r =>
        match acc with
        | none => some r
        | some b => if b.version_number < r.version_number then some r else some b)
      none with
  | none => rfl
  | some b =>
      have hb := hgt b hl
      simp [hb]

/-- Both similarity paths return 1 when comparing a case list with
itself, given the documented identical-input behaviour of the external
primitives (difflib ratio and TF-IDF cosine). -/
theorem compute_similarity_self (method : String)
    (embedSim : List Py.Step → List Py.Step → Option Rat)
    (ratioFn : String → String → Rat) (cases : List Py.Step)
    (hr : ratioFn (serializeCases cases) (serializeCases cases) = 1)
    (he : ∀ v, embedSim cases cases = some v → v = 1) :
    compute_similarity method embedSim ratioFn cases cases = 1 := by
  unfold compute_similarity
  by_cases hm : (Py.lowerPy method == "embedding") = true
  · rw [if_pos hm]
    cases hemb : embedSim cases cases with
    | none => exact hr
    | some v => exact he v hemb
  · rw [if_neg hm]
    exact hr

/-- C8: calling add_version twice in a row with identical case lists for
the same user story creates two distinct rows with consecutive version
numbers, and the second call returns similarity 1 — the value both
similarity primitives give identical inputs (1.0 is the maximum of
difflib ratio, whose identical-input value the hypotheses record). -/
theorem C8_add_version_identical_similarity (method : String)
    (embedSim : List Py.Step → List Py.Step → Option Rat)
    (ratioFn : String → String → Rat)
    (db : List VRow) (story author author2 : String) (cases : List Py.Step)
    (hr : ratioFn (serializeCases cases) (serializeCases cases) = 1)
    (he : ∀ v, embedSim cases cases = some v → v = 1) :
    let first := add_version method embedSim ratioFn db story cases author
    let second := add_version method embedSim ratioFn first.1 story cases author2
    second.2.similarity = 1
  ∧ second.2.version_number = first.2.version_number + 1
  ∧ second.1 = db ++
      [⟨story, first.2.version_number, author, first.2.similarity, cases⟩,
       ⟨story, first.2.version_number + 1, author2, 1, cases⟩] := by
  intro first second
  have hrow1 : first.1 = db ++
      [⟨story, first.2.version_number, author, first.2.similarity, cases⟩] := rfl
  have hlat : latestVersion first.1 story =
      some ⟨story, first.2.version_number, author, first.2.similarity, cases⟩ := by
    rw [hrow1]
    refine latestVersion_append db story _ rfl ?_
    intro b hb
    have hvn : first.2.version_number =
        match latestVersion db story with
        | some r => r.version_number + 1
        | none => 1 := rfl
    rw [hb] at hvn
    simp only at hvn
    show b.version_number < first.2.version_number
    rw [hvn]
    exact Nat.lt_succ_self _
  have hsim := compute_similarity_self method embedSim ratioFn cases hr he
  refine ⟨?_, ?_, ?_⟩
  · show (add_version method embedSim ratioFn first.1 story cases author2).2.similarity = 1
    unfold add_version
    simp only [hlat]
    exact hsim
  · show (add_version method embedSim ratioFn first.1 story cases author2).2.version_number
      = first.2.version_number + 1
    unfold add_version
    simp only [hlat]
  · show (add_version method embedSim ratioFn first.1 story cases author2).1 = db ++
      [⟨story, first.2.version_number, author, first.2.similarity, cases⟩,
       ⟨story, first.2.version_number + 1, author2, 1, cases⟩]
    unfold add_version
    simp only [hlat]
    rw [hrow1, List.append_assoc]
    simp [hsim]

/-- Witness for C8: with the default sequence method and the
identical-input ratio value, a concrete double insertion returns
similarity 1 on the second call. -/
theorem C8_add_version_witness :
    (add_version "sequence" (fun _ _ => none)
        (fun a b => if a == b then (1 : Rat) else 0)
        (add_version "sequence" (fun _ _ => none)
          (fun a b => if a == b then (1 : Rat) else 0)
          [] "s" [[("identifier", Py.PyVal.pstr "A")]] "u1").1
        "s" [[("identifier", Py.PyVal.pstr "A")]] "u2").2.similarity = 1 := by
  have h := C8_add_version_identical_similarity "sequence" (fun _ _ => none)
    (fun a b => if a == b then (1 : Rat) else 0)
    [] "s" "u1" "u2" [[("identifier", Py.PyVal.pstr "A")]]
    (by simp) (by intro v hv; simp at hv)
  obtain ⟨h1, _, _⟩ := h
  exact h1

end Versioning
